import Mathlib

/-!
Shallow embedding of `csv_to_mysql.py`: a chunked CSV-to-MySQL loader for
geographic records.  Pure string-processing functions (`validate_coordinate`,
`prepare_polygon`, `prepare_point`) are embedded over `List Char`; the loader
`import_data` is embedded as a state-passing loop over a list of chunks with
oracles for the two external effects (batch insert, rejection-file append).
-/

namespace CsvGeo

/-- ASCII whitespace stripped/split by Python `str.strip()` / `str.split()`:
space, tab, newline, carriage return, vertical tab, form feed. -/
def isPyWs (c : Char) : Bool :=
  c = ' ' || c = '\t' || c = '\n' || c = '\r' || c = Char.ofNat 11 || c = Char.ofNat 12

/-- `str.lstrip()` on a character list. -/
def pyTrimL (l : List Char) : List Char := l.dropWhile isPyWs

/-- `str.rstrip()` on a character list. -/
def pyTrimR (l : List Char) : List Char := (l.reverse.dropWhile isPyWs).reverse

/-- `str.strip()` on a character list. -/
def pyTrim (l : List Char) : List Char := pyTrimR (pyTrimL l)

/-- Split a character list at every character satisfying `p`, keeping empty
components (Python `str.split(sep)` with an explicit separator). -/
def splitOnPred (p : Char → Bool) : List Char → List (List Char)
  | [] => [[]]
  | c :: rest =>
    match splitOnPred p rest with
    | [] => [[c]]
    | h :: t => if p c then [] :: h :: t else (c :: h) :: t

/-- Python `str.split()` with no argument: tokens are the maximal runs of
non-whitespace characters (split at every whitespace character, drop the
empty components). -/
def pySplitWs (l : List Char) : List (List Char) :=
  (splitOnPred isPyWs l).filter (fun w => !w.isEmpty)

/-- Consume the continuation of a Python `digitpart` after its first digit:
digits, with single underscores allowed between digits.  Returns the
unconsumed remainder. -/
def eatDigits : List Char → List Char
  | [] => []
  | [c] => if c.isDigit then [] else [c]
  | c :: d :: rest =>
    if c.isDigit then eatDigits (d :: rest)
    else if c = '_' && d.isDigit then eatDigits rest
    else c :: d :: rest

/-- A full Python `digitpart` (at least one digit) followed by nothing. -/
def expDigits : List Char → Bool
  | [] => false
  | d :: rest => d.isDigit && (eatDigits rest).isEmpty

/-- Exponent digits after an optional sign. -/
def expSign : List Char → Bool
  | '+' :: rest => expDigits rest
  | '-' :: rest => expDigits rest
  | l => expDigits l

/-- Optional exponent part (`e`/`E`, optional sign, digitpart), consuming the
whole remainder. -/
def expPart : List Char → Bool
  | [] => true
  | 'e' :: rest => expSign rest
  | 'E' :: rest => expSign rest
  | _ => false

/-- After a leading `digitpart`: optional fraction, then optional exponent
(CPython `float()` number grammar). -/
def afterIntPart : List Char → Bool
  | '.' :: r2 =>
    match r2 with
    | d :: r3 => if d.isDigit then expPart (eatDigits r3) else expPart r2
    | [] => true
  | r1 => expPart r1

/-- CPython unsigned `floatnumber`: `digitpart [. [digitpart]] [exponent]`
or `. digitpart [exponent]`. -/
def pyFloatNum : List Char → Bool
  | [] => false
  | c :: rest =>
    if c.isDigit then afterIntPart (eatDigits rest)
    else if c = '.' then
      match rest with
      | d :: r2 => d.isDigit && expPart (eatDigits r2)
      | [] => false
    else false

/-- Strip one optional leading sign. -/
def stripSign : List Char → List Char
  | '+' :: rest => rest
  | '-' :: rest => rest
  | l => l

/-- Case-insensitive spelling of one of Python's non-finite float literals
(`inf`, `infinity`, `nan`), after trimming and an optional sign. -/
def isInfNanTok (l : List Char) : Bool :=
  let u := (stripSign (pyTrim l)).map Char.toLower
  u = "inf".data || u = "infinity".data || u = "nan".data

/-- Whether CPython `float(s)` succeeds (does not raise `ValueError`):
optional surrounding whitespace, optional sign, then either a numeric
literal or an `inf`/`infinity`/`nan` spelling. -/
def pyFloatAccepts (l : List Char) : Bool :=
  isInfNanTok l || pyFloatNum (stripSign (pyTrim l))

/-- Python error values relevant to this script.  `KeyboardInterrupt` is a
`BaseException` that is *not* an `Exception`, so a handler written
`except Exception` would let it through while a bare `except:` catches it. -/
inductive PyErr where
  | attributeError
  | valueError
  | keyboardInterrupt
deriving DecidableEq

/-- Whether the error is in Python's `Exception` class (caught by
`except Exception`). -/
def PyErr.isExceptionClass : PyErr → Bool
  | .keyboardInterrupt => false
  | _ => true

/-- A dynamically typed cell value as this script sees it: a string, an
integer, or the float NaN pandas uses for missing data. -/
inductive PyVal where
  | pstr (s : String)
  | pint (n : Int)
  | pnan
deriving DecidableEq

/-- Python truthiness test (`not x` guard) for the values above:
only the empty string and integer zero are falsy (NaN is truthy). -/
def pyFalsy : PyVal → Bool
  | .pstr s => s.isEmpty
  | .pint n => n == 0
  | .pnan => false

/-- `str(x)` for the values above. -/
def pyStr : PyVal → String
  | .pstr s => s
  | .pint n => toString n
  | .pnan => "nan"

/-- `pd.notna(x)`: false exactly on the missing-data marker. -/
def notna : PyVal → Bool
  | .pnan => false
  | _ => true

/-- The body of `validate_coordinate` before its bare `except:` —
`coord_str.strip().split()`, the length-2 check, and the two `float()`
conversions.  `.strip()` on a non-string raises `AttributeError`; a failed
`float()` raises `ValueError`. -/
def validateBody : PyVal → Except PyErr Bool
  | .pstr s =>
    match pySplitWs (pyTrim s.data) with
    | [a, b] =>
      if pyFloatAccepts a then
        if pyFloatAccepts b then .ok true else .error .valueError
      else .error .valueError
    | _ => .ok false
  | _ => .error .attributeError

/-- `validate_coordinate` (source lines 37-46): the body wrapped in a bare
`except:` that turns every fault into `False`. -/
def validate_coordinate (v : PyVal) : Bool :=
  match validateBody v with
  | .ok b => b
  | .error _ => false

/-- `validate_coordinate` restricted to genuine strings. -/
def validate_coordinate_str (s : String) : Bool :=
  validate_coordinate (.pstr s)

/-- The four bracket characters removed by `prepare_polygon`'s chained
`.replace` calls (source lines 56-57). -/
def notBracket (c : Char) : Bool := !(c = '(' || c = ')' || c = '[' || c = ']')

/-- The comma separator of `clean_str.split(",")`. -/
def isCommaCh (c : Char) : Bool := c = ','

/-- The cleaned coordinate-token list of `prepare_polygon` (source lines
55-64): drop every bracket character, split on commas, strip each token,
keep the tokens accepted by `validate_coordinate`. -/
def coordTokens (l : List Char) : List (List Char) :=
  ((splitOnPred isCommaCh (l.filter notBracket)).map pyTrim).filter
    (fun t => validate_coordinate (.pstr (String.mk t)))

/-- The tail of `prepare_polygon` (source lines 66-80): the 3-vertex floor,
ring auto-closure by string comparison of first and last token, the 4-vertex
post-closure floor, and the `POLYGON((...))` wrapping of the comma-join. -/
def polygonFromCoords (coords : List (List Char)) : Option String :=
  if coords.length < 3 then none
  else
    let closed := if coords.head! ≠ coords.getLast! then coords ++ [coords.head!] else coords
    if closed.length < 4 then none
    else some ("POLYGON((" ++ String.mk (List.intercalate [','] closed) ++ "))")

/-- `prepare_polygon` (source lines 48-83): falsy or non-string input yields
`None`; otherwise the input is stripped, cleaned, tokenized and assembled. -/
def prepare_polygon (v : PyVal) : Option String :=
  if pyFalsy v then none
  else
    match v with
    | .pstr s => polygonFromCoords (coordTokens (pyTrim s.data))
    | _ => none

/-- `prepare_point` (source lines 85-95): falsy or non-string input yields
`None`; otherwise `POINT(...)` wraps the *raw* input exactly when
`validate_coordinate` accepts it. -/
def prepare_point (v : PyVal) : Option String :=
  if pyFalsy v then none
  else
    match v with
    | .pstr s =>
      if validate_coordinate (.pstr s) then some ("POINT(" ++ s ++ ")") else none
    | _ => none

/-- `validate_coordinate` with its bare `except:` made explicit at the
`Except` level: every error of the body is absorbed into `ok false`. -/
def validate_coordinate_checked (v : PyVal) : Except PyErr Bool :=
  match validateBody v with
  | .ok b => .ok b
  | .error _ => .ok false

/-- Body of the `try:` block of `prepare_point`: `validate_coordinate`
already absorbs its own faults, and the f-string formatting is total, so the
body never raises. -/
def preparePointBody (s : String) : Except PyErr (Option String) :=
  .ok (if validate_coordinate (.pstr s) then some ("POINT(" ++ s ++ ")") else none)

/-- `prepare_point` at the `Except` level: guard, then body under a bare
`except:` returning `None`. -/
def prepare_point_checked (v : PyVal) : Except PyErr (Option String) :=
  if pyFalsy v then .ok none
  else
    match v with
    | .pstr s =>
      match preparePointBody s with
      | .ok r => .ok r
      | .error _ => .ok none
    | _ => .ok none

/-- Body of the `try:` block of `prepare_polygon`: string cleanup, token
validation and assembly are all total, so the body never raises. -/
def preparePolygonBody (s : String) : Except PyErr (Option String) :=
  .ok (polygonFromCoords (coordTokens (pyTrim s.data)))

/-- `prepare_polygon` at the `Except` level: guard, then body under
`except Exception` returning `None` — errors outside Python's `Exception`
class would propagate. -/
def prepare_polygon_checked (v : PyVal) : Except PyErr (Option String) :=
  if pyFalsy v then .ok none
  else
    match v with
    | .pstr s =>
      match preparePolygonBody s with
      | .ok r => .ok r
      | .error e => if e.isExceptionClass then .ok none else .error e
    | _ => .ok none

/-- Digit accumulation for Python `int(str)`: digits with single underscores
allowed between digits. -/
def intDigits : Nat → List Char → Option Nat
  | acc, [] => some acc
  | acc, '_' :: d :: rest =>
    if d.isDigit then intDigits (acc * 10 + (d.toNat - 48)) rest else none
  | acc, c :: rest =>
    if c.isDigit then intDigits (acc * 10 + (c.toNat - 48)) rest else none

/-- Whether (and to what) Python `int(s)` converts a string: surrounding
whitespace, optional sign, then a non-empty underscore-grouped digit run.
`none` models a raised `ValueError`. -/
def parseIntStr (s : String) : Option Int :=
  match pyTrim s.data with
  | '+' :: c :: rest =>
    if c.isDigit then (intDigits (c.toNat - 48) rest).map Int.ofNat else none
  | '-' :: c :: rest =>
    if c.isDigit then (intDigits (c.toNat - 48) rest).map (fun n => -(n : Int)) else none
  | c :: rest =>
    if c.isDigit then (intDigits (c.toNat - 48) rest).map Int.ofNat else none
  | [] => none

/-- Python `int(x)` on a cell value; `none` models a raised error
(`int(nan)` and `int("abc")` both raise). -/
def pyInt : PyVal → Option Int
  | .pint n => some n
  | .pnan => none
  | .pstr s => parseIntStr s

/-- One raw CSV row as `import_data` reads it: the seven required columns,
each a dynamically typed cell. -/
structure RawRow where
  id : PyVal
  pid : PyVal
  deep : PyVal
  name : PyVal
  ext_path : PyVal
  geo : PyVal
  polygon : PyVal
deriving DecidableEq

/-- The normalized record handed to the batch insert (source lines
126-134). -/
structure GeoRecord where
  id : Int
  pid : Int
  deep : Int
  name : String
  ext_path : String
  geo : Option String
  polygon : Option String
deriving DecidableEq

/-- One rejected-geometry entry (source lines 138-142): the raw `id` cell,
the fixed reason text, and the raw polygon cell. -/
structure BadRec where
  id : PyVal
  reason : String
  data : PyVal
deriving DecidableEq

/-- Per-row preparation (source lines 122-144): normalize the geometry
fields, coerce the scalars, build the record, and note a rejected polygon.
`none` models the per-row `except` path (a scalar coercion raised). -/
def prepRow (r : RawRow) : Option (GeoRecord × Option BadRec) :=
  let point_wkt := if notna r.geo then prepare_point (.pstr (pyStr r.geo)) else none
  let polygon_wkt := if notna r.polygon then prepare_polygon (.pstr (pyStr r.polygon)) else none
  match pyInt r.id, pyInt r.pid, pyInt r.deep with
  | some i, some p, some d =>
    some ({ id := i, pid := p, deep := d, name := pyStr r.name,
            ext_path := pyStr r.ext_path, geo := point_wkt, polygon := polygon_wkt },
          if notna r.polygon && polygon_wkt.isNone then
            some { id := r.id, reason := "Invalid polygon format", data := r.polygon }
          else none)
  | _, _, _ => none

/-- The preprocessing loop over one chunk (source lines 121-147): the
candidate insert list `values`, the window's `bad_records`, and the number
of rows that hit the per-row `except` (each adding 1 to `failed_rows`). -/
def prepareChunk : List RawRow → List GeoRecord × List BadRec × Nat
  | [] => ([], [], 0)
  | r :: rest =>
    let p := prepareChunk rest
    match prepRow r with
    | some (rec, some b) => (rec :: p.1, b :: p.2.1, p.2.2)
    | some (rec, none) => (rec :: p.1, p.2.1, p.2.2)
    | none => (p.1, p.2.1, p.2.2 + 1)

/-- The observable run state: the three accumulators of `import_data`, the
batches the database committed, the lines appended to `bad_polygons.csv`,
the per-chunk progress log entries `(chunk index, reported success,
reported failed)`, and a snapshot of the accumulators taken after each
normally completed chunk. -/
structure RunState where
  total : Nat
  success : Nat
  failed : Nat
  committed : List (List GeoRecord)
  sink : List BadRec
  progress : List (Nat × Nat × Nat)
  snaps : List (Nat × Nat × Nat)
deriving DecidableEq

/-- The all-zero state at the top of `import_data` (source lines 108-111). -/
def initState : RunState :=
  { total := 0, success := 0, failed := 0, committed := [], sink := [],
    progress := [], snaps := [] }

/-- Outcome of one window's `with engine.begin()` batch insert: the block
can fault at two points — `conn.execute` itself can raise (before the
`success_rows` increment at line 166), and the transaction commit performed
when the block exits can raise (after line 166). -/
inductive DbOutcome where
  | ok
  | execFault
  | commitFault
deriving DecidableEq

/-- The batch insert block (source lines 150-169): skipped on an empty
candidate list.  On success the batch is committed and counted into
`success_rows`.  Either fault is caught at line 167 and adds the candidate
count to `failed_rows`, and in neither fault mode is the batch committed —
but a commit-stage fault is raised *after* line 166 ran inside the block,
so it leaves `success_rows` already incremented as well. -/
def batchWrite (db : Nat → DbOutcome) (idx : Nat) (st : RunState)
    (values : List GeoRecord) : RunState :=
  if values.isEmpty then st
  else
    match db idx with
    | .ok =>
      { st with success := st.success + values.length,
                committed := st.committed ++ [values] }
    | .execFault => { st with failed := st.failed + values.length }
    | .commitFault =>
      { st with success := st.success + values.length,
                failed := st.failed + values.length }

/-- The progress report (source lines 178-185): `total_rows` grows by the
chunk length and the log line reports `len(values)` succeeded and
`len(chunk) - len(values)` failed, regardless of the insert outcome.  The
accumulator snapshot is an observer added for verification. -/
def reportChunk (idx : Nat) (chunkLen : Nat) (valuesLen : Nat) (st : RunState) : RunState :=
  { st with total := st.total + chunkLen,
            progress := st.progress ++ [(idx, valuesLen, chunkLen - valuesLen)],
            snaps := st.snaps ++ [(st.total + chunkLen, st.success, st.failed)] }

/-- One iteration of the chunk loop (source lines 115-185): prepare, batch
insert, append rejected rows to `bad_polygons.csv`, report.  The file
append (lines 171-175) is *not* inside a `try`: when it faults
(`sinkFail idx` with a non-empty `bad_records`), the exception escapes to
the handler at line 187 — the returned flag `true` marks that abort, and
neither the report nor the append happens. -/
def chunkStep (db : Nat → DbOutcome) (sinkFail : Nat → Bool) (idx : Nat) (st : RunState)
    (chunk : List RawRow) : RunState × Bool :=
  let p := prepareChunk chunk
  let st1 := { st with failed := st.failed + p.2.2 }
  let st2 := batchWrite db idx st1 p.1
  if p.2.1.isEmpty then (reportChunk idx chunk.length p.1.length st2, false)
  else if sinkFail idx then (st2, true)
  else (reportChunk idx chunk.length p.1.length
          { st2 with sink := st2.sink ++ p.2.1 }, false)

/-- The chunk loop of `import_data`: sequential, one `chunkStep` per chunk;
an abort (escaped exception, caught at line 187) stops the loop and the
remaining chunks are never read. -/
def runLoop (db : Nat → DbOutcome) (sinkFail : Nat → Bool) :
    Nat → RunState → List (List RawRow) → RunState × Bool
  | _, st, [] => (st, false)
  | idx, st, chunk :: rest =>
    let r := chunkStep db sinkFail idx st chunk
    if r.2 then (r.1, true) else runLoop db sinkFail (idx + 1) r.1 rest

/-- `import_data` (source lines 97-203) over a given list of chunks, with
oracles for the two external effects: how chunk `i`'s batch insert turns
out, and whether chunk `i`'s rejection-file append raises.  Returns the
final state and whether the run was aborted by an escaped exception. -/
def import_data (db : Nat → DbOutcome) (sinkFail : Nat → Bool)
    (chunks : List (List RawRow)) : RunState × Bool :=
  runLoop db sinkFail 0 initState chunks

/-! ### Definitions following the claims' own wording (for refinement
comparisons only; everything above is translated from the source). -/

/-- Claim C1's pipeline, stated exactly as the claim words it: strip every
bracket character, split on commas, trim each token, keep validator-passing
tokens, apply the two vertex floors and ring closure, wrap.  (No initial
whole-string strip and no emptiness guard appear in the claim.) -/
def preparePolygonClaim (s : String) : Option String :=
  polygonFromCoords (coordTokens s.data)

/-- Claim C6's description of point normalization: validate the trimmed
text and return `POINT(<x> <y>)` built from the two whitespace-separated
components of the *trimmed* text. -/
def preparePointClaim (s : String) : Option String :=
  if s.isEmpty then none
  else
    match pySplitWs (pyTrim s.data) with
    | [x, y] =>
      if pyFloatAccepts x && pyFloatAccepts y then
        some ("POINT(" ++ String.mk x ++ " " ++ String.mk y ++ ")")
      else none
    | _ => none

/-- Claim C2's notion of a token that "parses as a finite floating-point
number": accepted by the float parser and not an `inf`/`infinity`/`nan`
spelling (which parse to non-finite values). -/
def finiteFloatClaim (l : List Char) : Bool :=
  pyFloatAccepts l && !(isInfNanTok l)

/-! ### Character and split/trim lemmas -/

lemma isPyWs_cases {c : Char} (h : isPyWs c = true) :
    c = ' ' ∨ c = '\t' ∨ c = '\n' ∨ c = '\r' ∨ c = Char.ofNat 11 ∨ c = Char.ofNat 12 := by
  simpa [isPyWs, or_assoc] using h

lemma ws_notBracket {c : Char} (h : isPyWs c = true) : notBracket c = true := by
  rcases isPyWs_cases h with h | h | h | h | h | h <;> subst h <;> decide

lemma ws_not_comma {c : Char} (h : isPyWs c = true) : isCommaCh c = false := by
  rcases isPyWs_cases h with h | h | h | h | h | h <;> subst h <;> decide

lemma dropWhile_append_sat {p : Char → Bool} {a : List Char}
    (ha : ∀ c ∈ a, p c = true) (l : List Char) :
    (a ++ l).dropWhile p = l.dropWhile p := by
  induction a with
  | nil => rfl
  | cons c a ih =>
    have hc : p c = true := ha c (List.mem_cons_self c a)
    simp only [List.cons_append, List.dropWhile_cons, hc, if_true]
    exact ih fun x hx => ha x (List.mem_cons_of_mem c hx)

lemma dropWhile_eq_nil_of_sat {p : Char → Bool} {l : List Char}
    (h : ∀ c ∈ l, p c = true) : l.dropWhile p = [] :=
  List.dropWhile_eq_nil_iff.mpr h

lemma pyTrimL_ws_front {a : List Char} (ha : ∀ c ∈ a, isPyWs c = true)
    (l : List Char) : pyTrimL (a ++ l) = pyTrimL l :=
  dropWhile_append_sat ha l

lemma pyTrimR_ws_suffix {b : List Char} (hb : ∀ c ∈ b, isPyWs c = true)
    (l : List Char) : pyTrimR (l ++ b) = pyTrimR l := by
  unfold pyTrimR
  rw [List.reverse_append, dropWhile_append_sat (fun c hc => hb c (List.mem_reverse.mp hc))]

lemma pyTrim_ws_front {a : List Char} (ha : ∀ c ∈ a, isPyWs c = true)
    (l : List Char) : pyTrim (a ++ l) = pyTrim l := by
  unfold pyTrim
  rw [pyTrimL_ws_front ha]

lemma pyTrimL_append_of_ne_nil {x : List Char} (hx : pyTrimL x ≠ [])
    (b : List Char) : pyTrimL (x ++ b) = pyTrimL x ++ b := by
  induction x with
  | nil => exact absurd rfl hx
  | cons c x ih =>
    by_cases hc : isPyWs c = true
    · have h1 : pyTrimL (c :: x) = pyTrimL x := by
        simp [pyTrimL, List.dropWhile_cons, hc]
      rw [h1] at hx
      simp only [List.cons_append]
      have h2 : pyTrimL (c :: (x ++ b)) = pyTrimL (x ++ b) := by
        simp [pyTrimL, List.dropWhile_cons, hc]
      rw [h2, ih hx, h1]
    · have hc' : isPyWs c = false := by simpa using hc
      simp [pyTrimL, List.dropWhile_cons, hc']

lemma pyTrim_ws_suffix {b : List Char} (hb : ∀ c ∈ b, isPyWs c = true)
    (x : List Char) : pyTrim (x ++ b) = pyTrim x := by
  by_cases hx : pyTrimL x = []
  · have hxall : ∀ c ∈ x, isPyWs c = true := List.dropWhile_eq_nil_iff.mp hx
    have h1 : pyTrimL (x ++ b) = [] := by
      refine dropWhile_eq_nil_of_sat fun c hc => ?_
      rcases List.mem_append.mp hc with h | h
      · exact hxall c h
      · exact hb c h
    unfold pyTrim
    rw [h1, hx]
  · unfold pyTrim
    rw [pyTrimL_append_of_ne_nil hx, pyTrimR_ws_suffix hb]

lemma splitOnPred_ne_nil (p : Char → Bool) (l : List Char) : splitOnPred p l ≠ [] := by
  induction l with
  | nil => simp [splitOnPred]
  | cons c rest ih =>
    simp only [splitOnPred]
    rcases h : splitOnPred p rest with _ | ⟨h', t'⟩
    · simp
    · by_cases hp : p c = true <;> simp [hp]

lemma splitOnPred_append_nosep {p : Char → Bool} {a : List Char}
    (ha : ∀ c ∈ a, p c = false) {l : List Char} {h : List Char}
    {t : List (List Char)} (hl : splitOnPred p l = h :: t) :
    splitOnPred p (a ++ l) = (a ++ h) :: t := by
  induction a with
  | nil => simpa using hl
  | cons c a ih =>
    have hc : p c = false := ha c (List.mem_cons_self c a)
    have ih' := ih fun x hx => ha x (List.mem_cons_of_mem c hx)
    show splitOnPred p (c :: (a ++ l)) = (c :: (a ++ h)) :: t
    simp only [splitOnPred, ih', hc, Bool.false_eq_true, if_false]

/-- Append a tail to the last component of a non-empty component list
(the effect on `splitOnPred` of appending separator-free text). -/
def appLast (a : List Char) : List (List Char) → List (List Char)
  | [] => [a]
  | [x] => [x ++ a]
  | x :: y :: t => x :: appLast a (y :: t)

lemma splitOnPred_append_nosep_right {p : Char → Bool} {a : List Char}
    (ha : ∀ c ∈ a, p c = false) (l : List Char) :
    splitOnPred p (l ++ a) = appLast a (splitOnPred p l) := by
  induction l with
  | nil =>
    have h0 : splitOnPred p ([] : List Char) = [] :: [] := rfl
    have := splitOnPred_append_nosep ha (l := []) h0
    simpa [appLast] using this
  | cons c l ih =>
    rcases hS : splitOnPred p l with _ | ⟨h, t⟩
    · exact absurd hS (splitOnPred_ne_nil p l)
    · rcases t with _ | ⟨y, t'⟩
      · by_cases hp : p c = true
        · simp [splitOnPred, ih, hS, appLast, hp]
        · simp [splitOnPred, ih, hS, appLast, hp]
      · by_cases hp : p c = true
        · simp [splitOnPred, ih, hS, appLast, hp]
        · simp [splitOnPred, ih, hS, appLast, hp]

lemma map_pyTrim_appLast {b : List Char} (hb : ∀ c ∈ b, isPyWs c = true)
    (t : List (List Char)) (h : List Char) :
    (appLast b (h :: t)).map pyTrim = (h :: t).map pyTrim := by
  induction t generalizing h with
  | nil => simp [appLast, pyTrim_ws_suffix hb]
  | cons y t ih => simp only [appLast, List.map_cons, ih y]

lemma trim_decomp (l : List Char) :
    ∃ a b, (∀ c ∈ a, isPyWs c = true) ∧ (∀ c ∈ b, isPyWs c = true) ∧
      l = a ++ (pyTrim l ++ b) := by
  refine ⟨l.takeWhile isPyWs, ((pyTrimL l).reverse.takeWhile isPyWs).reverse,
    fun c hc => List.mem_takeWhile_imp hc,
    fun c hc => List.mem_takeWhile_imp (List.mem_reverse.mp hc), ?_⟩
  have h1 : l.takeWhile isPyWs ++ pyTrimL l = l :=
    List.takeWhile_append_dropWhile isPyWs l
  have h2 : pyTrim l ++ ((pyTrimL l).reverse.takeWhile isPyWs).reverse = pyTrimL l := by
    have h3 := congrArg List.reverse
      (List.takeWhile_append_dropWhile isPyWs (pyTrimL l).reverse)
    rw [List.reverse_append, List.reverse_reverse] at h3
    exact h3
  rw [h2, h1]

lemma map_trim_split_eq (l : List Char) :
    ((splitOnPred isCommaCh ((pyTrim l).filter notBracket)).map pyTrim)
      = ((splitOnPred isCommaCh (l.filter notBracket)).map pyTrim) := by
  obtain ⟨a, b, ha, hb, hl⟩ := trim_decomp l
  have hfa : a.filter notBracket = a :=
    List.filter_eq_self.mpr fun c hc => ws_notBracket (ha c hc)
  have hfb : b.filter notBracket = b :=
    List.filter_eq_self.mpr fun c hc => ws_notBracket (hb c hc)
  have hac : ∀ c ∈ a, isCommaCh c = false := fun c hc => ws_not_comma (ha c hc)
  have hbc : ∀ c ∈ b, isCommaCh c = false := fun c hc => ws_not_comma (hb c hc)
  conv_rhs => rw [hl]
  rw [List.filter_append, List.filter_append, hfa, hfb]
  rcases hS : splitOnPred isCommaCh ((pyTrim l).filter notBracket ++ b)
    with _ | ⟨h, t⟩
  · exact absurd hS (splitOnPred_ne_nil _ _)
  · rw [splitOnPred_append_nosep hac hS, List.map_cons,
      pyTrim_ws_front ha, ← List.map_cons, ← hS,
      splitOnPred_append_nosep_right hbc]
    rcases hS' : splitOnPred isCommaCh ((pyTrim l).filter notBracket)
      with _ | ⟨h', t'⟩
    · exact absurd hS' (splitOnPred_ne_nil _ _)
    · exact (map_pyTrim_appLast hb t' h').symm

lemma coordTokens_trim (l : List Char) : coordTokens (pyTrim l) = coordTokens l := by
  unfold coordTokens
  rw [map_trim_split_eq]

/-! ### Loader lemmas -/

lemma prepareChunk_len (rows : List RawRow) :
    (prepareChunk rows).1.length + (prepareChunk rows).2.2 = rows.length := by
  induction rows with
  | nil => rfl
  | cons r rest ih =>
    rcases h : prepRow r with _ | ⟨rec, _ | b⟩ <;>
      simp only [prepareChunk, h, List.length_cons] <;> omega

lemma prepareChunk_append (l1 l2 : List RawRow) :
    (prepareChunk (l1 ++ l2)).1 = (prepareChunk l1).1 ++ (prepareChunk l2).1 ∧
    (prepareChunk (l1 ++ l2)).2.1 = (prepareChunk l1).2.1 ++ (prepareChunk l2).2.1 ∧
    (prepareChunk (l1 ++ l2)).2.2 = (prepareChunk l1).2.2 + (prepareChunk l2).2.2 := by
  induction l1 with
  | nil => simp [prepareChunk]
  | cons r rest ih =>
    rcases h : prepRow r with _ | ⟨rec, _ | b⟩ <;>
      simp only [List.cons_append, prepareChunk, h, List.append_eq] <;>
      exact ⟨by rw [ih.1], by rw [ih.2.1], by have := ih.2.2; omega⟩

lemma batchWrite_total (db : Nat → DbOutcome) (idx : Nat) (st : RunState)
    (vs : List GeoRecord) : (batchWrite db idx st vs).total = st.total := by
  unfold batchWrite; split <;> [rfl; split <;> rfl]

lemma batchWrite_sink (db : Nat → DbOutcome) (idx : Nat) (st : RunState)
    (vs : List GeoRecord) : (batchWrite db idx st vs).sink = st.sink := by
  unfold batchWrite; split <;> [rfl; split <;> rfl]

lemma batchWrite_progress (db : Nat → DbOutcome) (idx : Nat) (st : RunState)
    (vs : List GeoRecord) : (batchWrite db idx st vs).progress = st.progress := by
  unfold batchWrite; split <;> [rfl; split <;> rfl]

lemma batchWrite_snaps (db : Nat → DbOutcome) (idx : Nat) (st : RunState)
    (vs : List GeoRecord) : (batchWrite db idx st vs).snaps = st.snaps := by
  unfold batchWrite; split <;> [rfl; split <;> rfl]

lemma batchWrite_of_execFault {db : Nat → DbOutcome} {idx : Nat}
    (h : db idx = .execFault) (st : RunState) (vs : List GeoRecord) :
    (batchWrite db idx st vs).success = st.success ∧
    (batchWrite db idx st vs).committed = st.committed ∧
    (batchWrite db idx st vs).failed = st.failed + vs.length := by
  unfold batchWrite
  rcases he : vs.isEmpty with _ | _
  · simp [he, h]
  · have hv : vs = [] := List.isEmpty_iff.mp he
    subst hv
    simp

lemma batchWrite_of_commitFault {db : Nat → DbOutcome} {idx : Nat}
    (h : db idx = .commitFault) (st : RunState) (vs : List GeoRecord) :
    (batchWrite db idx st vs).success = st.success + vs.length ∧
    (batchWrite db idx st vs).committed = st.committed ∧
    (batchWrite db idx st vs).failed = st.failed + vs.length := by
  unfold batchWrite
  rcases he : vs.isEmpty with _ | _
  · simp [he, h]
  · have hv : vs = [] := List.isEmpty_iff.mp he
    subst hv
    simp

lemma batchWrite_acc {db : Nat → DbOutcome} {idx : Nat}
    (h : db idx ≠ .commitFault) (st : RunState) (vs : List GeoRecord) :
    (batchWrite db idx st vs).success + (batchWrite db idx st vs).failed
      = st.success + st.failed + vs.length := by
  unfold batchWrite
  rcases he : vs.isEmpty with _ | _
  · rcases hf : db idx with _ | _ | _
    · simp [he, hf]
      omega
    · simp [he, hf]
      omega
    · exact absurd hf h
  · have hv : vs = [] := List.isEmpty_iff.mp he
    subst hv
    simp

lemma runLoop_cons_normal {db : Nat → DbOutcome} {sinkFail : Nat → Bool} {idx : Nat}
    {st st' : RunState} {c : List RawRow}
    (h : chunkStep db sinkFail idx st c = (st', false)) (rest : List (List RawRow)) :
    runLoop db sinkFail idx st (c :: rest) = runLoop db sinkFail (idx + 1) st' rest := by
  simp [runLoop, h]

lemma runLoop_cons_abort {db : Nat → DbOutcome} {sinkFail : Nat → Bool} {idx : Nat}
    {st st' : RunState} {c : List RawRow}
    (h : chunkStep db sinkFail idx st c = (st', true)) (rest : List (List RawRow)) :
    runLoop db sinkFail idx st (c :: rest) = (st', true) := by
  simp [runLoop, h]

lemma chunkStep_abort_snaps {db : Nat → DbOutcome} {sinkFail : Nat → Bool} {idx : Nat}
    {st st' : RunState} {chunk : List RawRow}
    (h : chunkStep db sinkFail idx st chunk = (st', true)) :
    st'.snaps = st.snaps := by
  simp only [chunkStep] at h
  split at h
  · injection h with _ h2
    exact Bool.noConfusion h2
  · split at h
    · injection h with h1 _
      rw [← h1]
      exact batchWrite_snaps _ _ _ _
    · injection h with _ h2
      exact Bool.noConfusion h2

lemma chunkStep_normal_acc {db : Nat → DbOutcome} {sinkFail : Nat → Bool} {idx : Nat}
    {st st' : RunState} {chunk : List RawRow}
    (h : chunkStep db sinkFail idx st chunk = (st', false))
    (hdb : db idx ≠ .commitFault)
    (hacc : st.total = st.success + st.failed) :
    st'.total = st'.success + st'.failed ∧
    st'.snaps = st.snaps ++ [(st'.total, st'.success, st'.failed)] := by
  have hlen := prepareChunk_len chunk
  have hbw := batchWrite_acc hdb
    { st with failed := st.failed + (prepareChunk chunk).2.2 } (prepareChunk chunk).1
  have hbt := batchWrite_total db idx
    { st with failed := st.failed + (prepareChunk chunk).2.2 } (prepareChunk chunk).1
  have hbs := batchWrite_snaps db idx
    { st with failed := st.failed + (prepareChunk chunk).2.2 } (prepareChunk chunk).1
  simp only [chunkStep] at h
  split at h
  · injection h with h1 _
    rw [← h1]
    simp only [reportChunk] at *
    exact ⟨by omega, by simp [hbs, hbt]⟩
  · split at h
    · injection h with _ h2
      exact Bool.noConfusion h2
    · injection h with h1 _
      rw [← h1]
      simp only [reportChunk] at *
      exact ⟨by omega, by simp [hbs, hbt]⟩

lemma runLoop_snaps_inv (db : Nat → DbOutcome) (sinkFail : Nat → Bool)
    (chunks : List (List RawRow)) (hdb : ∀ i, db i ≠ .commitFault) :
    ∀ idx st, st.total = st.success + st.failed →
      (∀ x ∈ st.snaps, x.1 = x.2.1 + x.2.2) →
      ∀ x ∈ (runLoop db sinkFail idx st chunks).1.snaps, x.1 = x.2.1 + x.2.2 := by
  induction chunks with
  | nil => intro idx st hacc hsnap x hx; exact hsnap x hx
  | cons c rest ih =>
    intro idx st hacc hsnap x hx
    rcases hcs : chunkStep db sinkFail idx st c with ⟨st', ab⟩
    rcases ab with _ | _
    · rw [runLoop_cons_normal hcs] at hx
      obtain ⟨hacc', hsnap'⟩ := chunkStep_normal_acc hcs (hdb idx) hacc
      refine ih (idx + 1) st' hacc' ?_ x hx
      intro y hy
      rw [hsnap'] at hy
      rcases List.mem_append.mp hy with hy | hy
      · exact hsnap y hy
      · rcases List.mem_singleton.mp hy with rfl
        exact hacc'
    · rw [runLoop_cons_abort hcs] at hx
      rw [chunkStep_abort_snaps hcs] at hx
      exact hsnap x hx

/-! ### Concrete fixtures for witnesses and counterexamples -/

/-- Oracle: no rejection-file append ever faults. -/
def neverFault : Nat → Bool := fun _ => false

/-- Oracle: every rejection-file append faults. -/
def alwaysFault : Nat → Bool := fun _ => true

/-- Oracle: only the rejection-file append for chunk 0 faults. -/
def firstChunkFault : Nat → Bool := fun n => n == 0

/-- Oracle: every batch insert succeeds. -/
def dbAllOk : Nat → DbOutcome := fun _ => .ok

/-- Oracle: every batch insert faults inside `conn.execute`. -/
def dbExecFault : Nat → DbOutcome := fun _ => .execFault

/-- Oracle: every batch insert faults at transaction commit. -/
def dbCommitFault : Nat → DbOutcome := fun _ => .commitFault

/-- A well-formed row with no geometry. -/
def rowGood : RawRow :=
  ⟨.pint 1, .pint 0, .pint 2, .pstr "A", .pstr "P", .pnan, .pnan⟩

/-- A row whose `id` cell cannot be coerced to an integer. -/
def rowBadId : RawRow :=
  ⟨.pstr "x9", .pint 0, .pint 2, .pstr "B", .pstr "P", .pnan, .pnan⟩

/-- A row with good scalars and a polygon that fails normalization
(only two valid vertices). -/
def rowBadPoly : RawRow :=
  ⟨.pint 7, .pint 0, .pint 3, .pstr "C", .pstr "P", .pnan, .pstr "1 1,2 2"⟩

/-- A row with good scalars, an invalid point and an invalid polygon. -/
def rowSoft : RawRow :=
  ⟨.pint 1, .pint 0, .pint 2, .pstr "N", .pstr "E", .pstr "abc", .pstr "1 1,2 2"⟩

/-! ### Claim theorems -/

/-- Claim C1: `prepare_polygon` applies exactly the claimed pipeline —
strip brackets, split on commas, trim, keep validator-passing tokens in
order, apply the 3-vertex floor, auto-close only an open ring, apply the
4-vertex post-closure floor, and wrap the comma-join in `POLYGON((...))`
with each surviving token's text unmodified.  The source's initial
whole-string strip is absorbed by the per-token trims, so the two
pipelines agree on every input string. -/
theorem prepare_polygon_matches_claim_pipeline (s : String) :
    prepare_polygon (.pstr s) = preparePolygonClaim s := by
  rcases he : s.isEmpty with _ | _
  · have hf : pyFalsy (.pstr s) = false := he
    simp only [prepare_polygon, hf, Bool.false_eq_true, if_false]
    unfold preparePolygonClaim
    rw [coordTokens_trim]
  · have hs : s = "" := (String.isEmpty_iff s).mp he
    subst hs
    decide

/-- Claim C2, counterexample: `validate_coordinate` accepts `"inf 1"`
although `inf` parses to an *infinite* value, so "returns true iff both
tokens parse as finite floating-point numbers" fails at this input. -/
theorem validate_coordinate_accepts_nonfinite :
    validate_coordinate_str "inf 1" = true
    ∧ pySplitWs (pyTrim ("inf 1".data)) = ["inf".data, "1".data]
    ∧ finiteFloatClaim "inf".data = false
    ∧ ¬(validate_coordinate_str "inf 1" = true ↔
        ((pySplitWs (pyTrim ("inf 1".data))).length = 2
          ∧ ∀ t ∈ pySplitWs (pyTrim ("inf 1".data)), finiteFloatClaim t = true)) := by
  decide

/-- Claim C2, amended: `validate_coordinate` returns true iff the trimmed
input splits on whitespace into exactly two tokens and both are accepted by
the floating-point parser — which also accepts the non-finite spellings
`inf`, `infinity` and `nan`, so accepted tokens need not denote finite
values. -/
theorem validate_coordinate_iff_two_float_tokens (s : String) :
    validate_coordinate_str s = true ↔
      ∃ a b, pySplitWs (pyTrim s.data) = [a, b]
        ∧ pyFloatAccepts a = true ∧ pyFloatAccepts b = true := by
  unfold validate_coordinate_str validate_coordinate validateBody
  rcases hsp : pySplitWs (pyTrim s.data) with _ | ⟨a, _ | ⟨b, _ | ⟨c, t⟩⟩⟩ <;>
    simp only [hsp]
  · simp
  · simp
  · rcases hfa : pyFloatAccepts a with _ | _ <;>
      rcases hfb : pyFloatAccepts b with _ | _ <;> simp [hfa, hfb]
    exact ⟨a, b, ⟨rfl, rfl⟩, hfa, hfb⟩
  · simp

/-- Claim C6, counterexample: `prepare_point` wraps the *raw* input text,
not the whitespace-normalized `<x> <y>` form the claim describes: on
`"1  2"` (two inner spaces) the code returns `POINT(1  2)` while the
claimed normalization would return `POINT(1 2)`. -/
theorem prepare_point_preserves_raw_spacing :
    prepare_point (.pstr "1  2") = some "POINT(1  2)"
    ∧ preparePointClaim "1  2" = some "POINT(1 2)"
    ∧ prepare_point (.pstr "1  2") ≠ preparePointClaim "1  2" := by
  decide

/-- Claim C6, amended: `prepare_point` returns absent on absent/empty input
and on input rejected by `validate_coordinate`; on accepted input it
returns `POINT(` followed by the input text *verbatim* and `)` — which
coincides with `POINT(<x> <y>)` exactly when the input is already in
canonical single-space form.  No exception escapes. -/
theorem prepare_point_wraps_raw_input (s : String) :
    prepare_point (.pstr s)
      = if validate_coordinate_str s = true then some ("POINT(" ++ s ++ ")") else none := by
  rcases he : s.isEmpty with _ | _
  · have hf : pyFalsy (.pstr s) = false := he
    simp only [prepare_point, hf, Bool.false_eq_true, if_false]
    rfl
  · have hs : s = "" := (String.isEmpty_iff s).mp he
    subst hs
    decide

/-- Claim C8: the three normalization functions are total at their public
interface.  Each function is the catch-wrapped form of a body whose raise
points are explicit (`.strip()` on a non-string raises `AttributeError`, a
failed `float()` raises `ValueError`); the wrapped forms never propagate an
error and agree with the total embeddings, returning a boolean
(`validate_coordinate`) or an optional WKT string (`prepare_point`,
`prepare_polygon`) for every input value, string or not. -/
theorem normalizers_never_propagate (v : PyVal) :
    validate_coordinate_checked v = Except.ok (validate_coordinate v)
    ∧ prepare_point_checked v = Except.ok (prepare_point v)
    ∧ prepare_polygon_checked v = Except.ok (prepare_polygon v) := by
  refine ⟨?_, ?_, ?_⟩
  · unfold validate_coordinate_checked validate_coordinate
    rcases validateBody v with b | e <;> rfl
  · cases v with
    | pstr s =>
      rcases hf : pyFalsy (.pstr s) with _ | _ <;>
        simp [prepare_point_checked, prepare_point, preparePointBody, hf]
    | pint n =>
      rcases hf : pyFalsy (.pint n) with _ | _ <;>
        simp [prepare_point_checked, prepare_point, hf]
    | pnan => rfl
  · cases v with
    | pstr s =>
      rcases hf : pyFalsy (.pstr s) with _ | _ <;>
        simp [prepare_polygon_checked, prepare_polygon, preparePolygonBody, hf]
    | pint n =>
      rcases hf : pyFalsy (.pint n) with _ | _ <;>
        simp [prepare_polygon_checked, prepare_polygon, hf]
    | pnan => rfl

/-- Claim C3, counterexample: a batch fault raised at transaction commit
occurs after line 166's `success_rows += len(values)`, so the faulted
one-row window ends with `success_rows = 1` — not left unchanged — while
the except also sets `failed_rows = 1`; nothing is committed and the run
completes normally. -/
theorem commit_fault_increments_success :
    (import_data dbCommitFault neverFault [[rowGood]]).1.success = 1
    ∧ (import_data dbCommitFault neverFault [[rowGood]]).1.success ≠ initState.success
    ∧ (import_data dbCommitFault neverFault [[rowGood]]).1.failed = 1
    ∧ (import_data dbCommitFault neverFault [[rowGood]]).1.committed = []
    ∧ (import_data dbCommitFault neverFault [[rowGood]]).1.total = 1
    ∧ (import_data dbCommitFault neverFault [[rowGood]]).2 = false := by
  decide

/-- Claim C3, amended: when a window's batch insert faults, the write step
leaves the committed batches unchanged (no partial commit) and adds exactly
the window's candidate count to `failed_rows`; the window completes
normally and the run continues with the remaining windows from the updated
state (no retry).  `success_rows` is left unchanged when the fault is
raised by the insert execution itself, but a fault raised at transaction
commit happens after the success increment at line 166, so `success_rows`
has then also been increased by the candidate count. -/
theorem batch_fault_counts_window_failed (db : Nat → DbOutcome) (sinkF : Nat → Bool)
    (idx : Nat) (st : RunState) (chunk : List RawRow)
    (hfault : db idx = .execFault ∨ db idx = .commitFault) (hsink : sinkF idx = false) :
    (batchWrite db idx st (prepareChunk chunk).1).committed = st.committed
    ∧ (batchWrite db idx st (prepareChunk chunk).1).failed
        = st.failed + (prepareChunk chunk).1.length
    ∧ (db idx = .execFault →
        (batchWrite db idx st (prepareChunk chunk).1).success = st.success)
    ∧ (db idx = .commitFault →
        (batchWrite db idx st (prepareChunk chunk).1).success
          = st.success + (prepareChunk chunk).1.length)
    ∧ ∃ st', chunkStep db sinkF idx st chunk = (st', false)
        ∧ st'.committed = st.committed
        ∧ st'.failed = st.failed + (prepareChunk chunk).2.2 + (prepareChunk chunk).1.length
        ∧ (db idx = .execFault → st'.success = st.success)
        ∧ (db idx = .commitFault →
            st'.success = st.success + (prepareChunk chunk).1.length)
        ∧ ∀ rest, runLoop db sinkF idx st (chunk :: rest)
            = runLoop db sinkF (idx + 1) st' rest := by
  have hcom : (batchWrite db idx st (prepareChunk chunk).1).committed = st.committed := by
    rcases hfault with h | h
    · exact (batchWrite_of_execFault h st _).2.1
    · exact (batchWrite_of_commitFault h st _).2.1
  have hfld : (batchWrite db idx st (prepareChunk chunk).1).failed
      = st.failed + (prepareChunk chunk).1.length := by
    rcases hfault with h | h
    · exact (batchWrite_of_execFault h st _).2.2
    · exact (batchWrite_of_commitFault h st _).2.2
  refine ⟨hcom, hfld, fun h => (batchWrite_of_execFault h st _).1,
    fun h => (batchWrite_of_commitFault h st _).1, ?_⟩
  have hcom' : (batchWrite db idx { st with failed := st.failed + (prepareChunk chunk).2.2 }
      (prepareChunk chunk).1).committed = st.committed := by
    rcases hfault with h | h
    · exact (batchWrite_of_execFault h _ _).2.1
    · exact (batchWrite_of_commitFault h _ _).2.1
  have hfld' : (batchWrite db idx { st with failed := st.failed + (prepareChunk chunk).2.2 }
      (prepareChunk chunk).1).failed
        = st.failed + (prepareChunk chunk).2.2 + (prepareChunk chunk).1.length := by
    rcases hfault with h | h
    · exact (batchWrite_of_execFault h _ _).2.2
    · exact (batchWrite_of_commitFault h _ _).2.2
  rcases hb : (prepareChunk chunk).2.1.isEmpty with _ | _
  · have hstep : chunkStep db sinkF idx st chunk
        = (reportChunk idx chunk.length (prepareChunk chunk).1.length
            { batchWrite db idx { st with failed := st.failed + (prepareChunk chunk).2.2 }
                (prepareChunk chunk).1 with
              sink := (batchWrite db idx
                  { st with failed := st.failed + (prepareChunk chunk).2.2 }
                  (prepareChunk chunk).1).sink ++ (prepareChunk chunk).2.1 }, false) := by
      simp [chunkStep, hb, hsink]
    refine ⟨_, hstep, ?_, ?_, ?_, ?_, fun rest => runLoop_cons_normal hstep rest⟩
    · simpa [reportChunk] using hcom'
    · simpa [reportChunk] using hfld'
    · intro h
      simpa [reportChunk] using (batchWrite_of_execFault h
        { st with failed := st.failed + (prepareChunk chunk).2.2 } (prepareChunk chunk).1).1
    · intro h
      simpa [reportChunk] using (batchWrite_of_commitFault h
        { st with failed := st.failed + (prepareChunk chunk).2.2 } (prepareChunk chunk).1).1
  · have hstep : chunkStep db sinkF idx st chunk
        = (reportChunk idx chunk.length (prepareChunk chunk).1.length
            (batchWrite db idx { st with failed := st.failed + (prepareChunk chunk).2.2 }
              (prepareChunk chunk).1), false) := by
      simp [chunkStep, hb]
    refine ⟨_, hstep, ?_, ?_, ?_, ?_, fun rest => runLoop_cons_normal hstep rest⟩
    · simpa [reportChunk] using hcom'
    · simpa [reportChunk] using hfld'
    · intro h
      simpa [reportChunk] using (batchWrite_of_execFault h
        { st with failed := st.failed + (prepareChunk chunk).2.2 } (prepareChunk chunk).1).1
    · intro h
      simpa [reportChunk] using (batchWrite_of_commitFault h
        { st with failed := st.failed + (prepareChunk chunk).2.2 } (prepareChunk chunk).1).1

/-- Claim C3 amended-form witness: a one-row window against a database
that faults inside `conn.execute` keeps success at 0, commits nothing,
counts the candidate as failed, and the loop equation continues past the
window. -/
theorem batch_fault_counts_window_failed_witness :
    (batchWrite dbExecFault 0 initState (prepareChunk [rowGood]).1).committed
        = initState.committed
    ∧ (batchWrite dbExecFault 0 initState (prepareChunk [rowGood]).1).failed
        = initState.failed + (prepareChunk [rowGood]).1.length
    ∧ (dbExecFault 0 = .execFault →
        (batchWrite dbExecFault 0 initState (prepareChunk [rowGood]).1).success
          = initState.success)
    ∧ (dbExecFault 0 = .commitFault →
        (batchWrite dbExecFault 0 initState (prepareChunk [rowGood]).1).success
          = initState.success + (prepareChunk [rowGood]).1.length)
    ∧ ∃ st', chunkStep dbExecFault neverFault 0 initState [rowGood] = (st', false)
        ∧ st'.committed = initState.committed
        ∧ st'.failed = initState.failed + (prepareChunk [rowGood]).2.2
            + (prepareChunk [rowGood]).1.length
        ∧ (dbExecFault 0 = .execFault → st'.success = initState.success)
        ∧ (dbExecFault 0 = .commitFault →
            st'.success = initState.success + (prepareChunk [rowGood]).1.length)
        ∧ ∀ rest, runLoop dbExecFault neverFault 0 initState ([rowGood] :: rest)
            = runLoop dbExecFault neverFault 1 st' rest :=
  batch_fault_counts_window_failed dbExecFault neverFault 0 initState [rowGood]
    (Or.inl rfl) rfl

/-- Claim C4: a row whose `id`, `pid` or `deep` coercion fails is excluded
from the window's candidate set, adds exactly 1 to the failure count, and
contributes no rejected-geometry entry — so the rest of the window is
prepared exactly as if the row were absent, with one extra failure. -/
theorem scalar_coercion_failure_drops_row (pre post : List RawRow) (r : RawRow)
    (h : pyInt r.id = none ∨ pyInt r.pid = none ∨ pyInt r.deep = none) :
    prepRow r = none
    ∧ (prepareChunk (pre ++ r :: post)).1 = (prepareChunk pre).1 ++ (prepareChunk post).1
    ∧ (prepareChunk (pre ++ r :: post)).2.1 = (prepareChunk pre).2.1 ++ (prepareChunk post).2.1
    ∧ (prepareChunk (pre ++ r :: post)).2.2
        = (prepareChunk pre).2.2 + (prepareChunk post).2.2 + 1 := by
  have hrow : prepRow r = none := by
    unfold prepRow
    rcases h1 : pyInt r.id with _ | i <;> rcases h2 : pyInt r.pid with _ | p <;>
      rcases h3 : pyInt r.deep with _ | d <;> simp_all
  obtain ⟨ha, hb, hc⟩ := prepareChunk_append pre (r :: post)
  have hcons1 : (prepareChunk (r :: post)).1 = (prepareChunk post).1 := by
    simp [prepareChunk, hrow]
  have hcons2 : (prepareChunk (r :: post)).2.1 = (prepareChunk post).2.1 := by
    simp [prepareChunk, hrow]
  have hcons3 : (prepareChunk (r :: post)).2.2 = (prepareChunk post).2.2 + 1 := by
    simp [prepareChunk, hrow]
  exact ⟨hrow, by rw [ha, hcons1], by rw [hb, hcons2], by rw [hc, hcons3]; omega⟩

/-- Claim C4 witness: in the 3-row window `[rowGood, rowBadId, rowGood]`
the malformed-`id` middle row is dropped, the candidate set has 2 records,
the failure count is 1 and no rejected-geometry entry is produced. -/
theorem scalar_coercion_failure_drops_row_witness :
    prepRow rowBadId = none
    ∧ (prepareChunk ([rowGood] ++ rowBadId :: [rowGood])).1
        = (prepareChunk [rowGood]).1 ++ (prepareChunk [rowGood]).1
    ∧ (prepareChunk ([rowGood] ++ rowBadId :: [rowGood])).2.1
        = (prepareChunk [rowGood]).2.1 ++ (prepareChunk [rowGood]).2.1
    ∧ (prepareChunk ([rowGood] ++ rowBadId :: [rowGood])).2.2
        = (prepareChunk [rowGood]).2.2 + (prepareChunk [rowGood]).2.2 + 1
    ∧ (prepareChunk ([rowGood] ++ rowBadId :: [rowGood])).1.length = 2
    ∧ (prepareChunk ([rowGood] ++ rowBadId :: [rowGood])).2.2 = 1
    ∧ (prepareChunk ([rowGood] ++ rowBadId :: [rowGood])).2.1 = [] := by
  have h := scalar_coercion_failure_drops_row [rowGood] [rowGood] rowBadId
    (Or.inl (by decide))
  exact ⟨h.1, h.2.1, h.2.2.1, h.2.2.2, by decide, by decide, by decide⟩

/-- Claim C5: a row whose scalar coercions succeed but whose present
polygon fails normalization is still emitted into the candidate set with
`polygon` absent, together with a rejected-geometry entry carrying the raw
cells; a failing point only nulls the `geo` field and produces no
rejected-geometry entry; in neither case does the row count as failed at
preparation time. -/
theorem polygon_soft_failure_keeps_row (r : RawRow) (i p d : Int)
    (hid : pyInt r.id = some i) (hpid : pyInt r.pid = some p)
    (hdeep : pyInt r.deep = some d) :
    (notna r.polygon = true →
      prepare_polygon (.pstr (pyStr r.polygon)) = none →
      prepRow r = some
        ({ id := i, pid := p, deep := d, name := pyStr r.name, ext_path := pyStr r.ext_path,
           geo := if notna r.geo then prepare_point (.pstr (pyStr r.geo)) else none,
           polygon := none },
         some { id := r.id, reason := "Invalid polygon format", data := r.polygon })
      ∧ (prepareChunk [r]).2.1
          = [{ id := r.id, reason := "Invalid polygon format", data := r.polygon }]
      ∧ (prepareChunk [r]).1.length = 1)
    ∧ (notna r.geo = true → prepare_point (.pstr (pyStr r.geo)) = none →
        ∃ rec bad, prepRow r = some (rec, bad) ∧ rec.geo = none
          ∧ (notna r.polygon = false → bad = none)
          ∧ (prepare_polygon (.pstr (pyStr r.polygon)) ≠ none → bad = none))
    ∧ (∃ rb, prepRow r = some rb)
    ∧ (prepareChunk [r]).2.2 = 0 := by
  have hmain : prepRow r = some
      ({ id := i, pid := p, deep := d, name := pyStr r.name, ext_path := pyStr r.ext_path,
         geo := if notna r.geo then prepare_point (.pstr (pyStr r.geo)) else none,
         polygon := if notna r.polygon then prepare_polygon (.pstr (pyStr r.polygon))
                    else none },
       if notna r.polygon
           && (if notna r.polygon then prepare_polygon (.pstr (pyStr r.polygon))
               else none).isNone
       then some { id := r.id, reason := "Invalid polygon format", data := r.polygon }
       else none) := by
    simp only [prepRow, hid, hpid, hdeep]
  have hfail0 : (prepareChunk [r]).2.2 = 0 := by
    rcases hcond : (notna r.polygon
        && (if notna r.polygon then prepare_polygon (.pstr (pyStr r.polygon))
            else none).isNone) with _ | _ <;>
      simp [prepareChunk, hmain, hcond]
  refine ⟨?_, ?_, ⟨_, hmain⟩, hfail0⟩
  · intro hpoly hfail
    refine ⟨?_, ?_, ?_⟩
    · rw [hmain]
      simp [hpoly, hfail]
    · simp [prepareChunk, hmain, hpoly, hfail]
    · simp [prepareChunk, hmain, hpoly, hfail]
  · intro hgeo hpt
    refine ⟨_, _, hmain, ?_, ?_, ?_⟩
    · simp [hgeo, hpt]
    · intro hnp
      simp [hnp]
    · intro hpp
      rcases hnp : notna r.polygon with _ | _
      · simp [hnp]
      · rcases hpv : prepare_polygon (.pstr (pyStr r.polygon)) with _ | w
        · exact absurd hpv hpp
        · simp [hnp, hpv]

/-- Claim C5 witness: `rowSoft` (valid scalars, invalid point `"abc"`,
invalid polygon `"1 1,2 2"`) is kept in the candidate set with both
geometry fields absent, a rejected-geometry entry is recorded, and the
preparation failure count stays 0. -/
theorem polygon_soft_failure_keeps_row_witness :
    prepRow rowSoft = some
      ({ id := 1, pid := 0, deep := 2, name := pyStr rowSoft.name,
         ext_path := pyStr rowSoft.ext_path,
         geo := if notna rowSoft.geo then prepare_point (.pstr (pyStr rowSoft.geo)) else none,
         polygon := none },
       some { id := rowSoft.id, reason := "Invalid polygon format", data := rowSoft.polygon })
    ∧ (prepareChunk [rowSoft]).2.1
        = [{ id := rowSoft.id, reason := "Invalid polygon format", data := rowSoft.polygon }]
    ∧ (prepareChunk [rowSoft]).1.length = 1
    ∧ (prepareChunk [rowSoft]).2.2 = 0 := by
  have h := polygon_soft_failure_keeps_row rowSoft 1 0 2 rfl rfl rfl
  obtain ⟨h1, h2, h3⟩ := h.1 rfl (by decide)
  exact ⟨h1, h2, h3, h.2.2.2⟩

/-- Claim C7, counterexample: with a database that never faults and a
rejection-file append that faults on chunk 0, the run over two windows
aborts after the first window — the flag is set, the second window is
never read (`total` stays 0, no progress line), although the first
window's batch outcome (`success = 1`) was already recorded.  With a
working append the same input processes both windows (`total = 2`).  This
contradicts "the run continues with the next window". -/
theorem sink_append_failure_aborts_run :
    (import_data dbAllOk firstChunkFault [[rowBadPoly], [rowGood]]).2 = true
    ∧ (import_data dbAllOk firstChunkFault [[rowBadPoly], [rowGood]]).1.success = 1
    ∧ (import_data dbAllOk firstChunkFault [[rowBadPoly], [rowGood]]).1.total = 0
    ∧ (import_data dbAllOk firstChunkFault [[rowBadPoly], [rowGood]]).1.progress = []
    ∧ (import_data dbAllOk firstChunkFault [[rowBadPoly], [rowGood]]).1.sink = []
    ∧ (import_data dbAllOk neverFault [[rowBadPoly], [rowGood]]).2 = false
    ∧ (import_data dbAllOk neverFault [[rowBadPoly], [rowGood]]).1.total = 2 := by
  decide

/-- Claim C7, amended: when a window has rejected-geometry entries and the
append to the rejection file faults, the window's already-recorded batch
outcome is unchanged (the loop result is exactly the post-write state),
but the exception escapes to the run-level handler and the loop stops:
nothing is appended to the rejection file, no progress line or total
update is made for the window, and the remaining windows are not
processed. -/
theorem sink_append_failure_stops_run (db : Nat → DbOutcome) (sinkF : Nat → Bool)
    (idx : Nat) (st : RunState) (chunk : List RawRow) (rest : List (List RawRow))
    (hbad : (prepareChunk chunk).2.1.isEmpty = false) (hsink : sinkF idx = true) :
    runLoop db sinkF idx st (chunk :: rest)
      = (batchWrite db idx { st with failed := st.failed + (prepareChunk chunk).2.2 }
          (prepareChunk chunk).1, true)
    ∧ (batchWrite db idx { st with failed := st.failed + (prepareChunk chunk).2.2 }
        (prepareChunk chunk).1).sink = st.sink
    ∧ (batchWrite db idx { st with failed := st.failed + (prepareChunk chunk).2.2 }
        (prepareChunk chunk).1).progress = st.progress
    ∧ (batchWrite db idx { st with failed := st.failed + (prepareChunk chunk).2.2 }
        (prepareChunk chunk).1).total = st.total := by
  have hstep : chunkStep db sinkF idx st chunk
      = (batchWrite db idx { st with failed := st.failed + (prepareChunk chunk).2.2 }
          (prepareChunk chunk).1, true) := by
    simp [chunkStep, hbad, hsink]
  exact ⟨runLoop_cons_abort hstep rest,
    batchWrite_sink db idx _ _, batchWrite_progress db idx _ _,
    batchWrite_total db idx _ _⟩

/-- Claim C7 amended-form witness: a concrete window with a rejected
polygon and a faulting append aborts the run with the batch outcome
preserved. -/
theorem sink_append_failure_stops_run_witness :
    runLoop dbAllOk alwaysFault 0 initState ([rowBadPoly] :: [[rowGood]])
      = (batchWrite dbAllOk 0
          { initState with failed := initState.failed + (prepareChunk [rowBadPoly]).2.2 }
          (prepareChunk [rowBadPoly]).1, true)
    ∧ (batchWrite dbAllOk 0
        { initState with failed := initState.failed + (prepareChunk [rowBadPoly]).2.2 }
        (prepareChunk [rowBadPoly]).1).sink = initState.sink
    ∧ (batchWrite dbAllOk 0
        { initState with failed := initState.failed + (prepareChunk [rowBadPoly]).2.2 }
        (prepareChunk [rowBadPoly]).1).progress = initState.progress
    ∧ (batchWrite dbAllOk 0
        { initState with failed := initState.failed + (prepareChunk [rowBadPoly]).2.2 }
        (prepareChunk [rowBadPoly]).1).total = initState.total :=
  sink_append_failure_stops_run dbAllOk alwaysFault 0 initState [rowBadPoly] [[rowGood]]
    (by decide) rfl

/-- Claim C9, counterexample: a window whose batch insert faults at
transaction commit completes its report sequence normally but double-counts
its candidates — `success_rows` was incremented inside the `with` block at
line 166 and the except then adds the same count to `failed_rows` — so the
post-window snapshot is `(total, success, failed) = (1, 1, 1)` and
`total = success + failed` fails. -/
theorem commit_fault_breaks_accounting :
    (1, 1, 1) ∈ (import_data dbCommitFault neverFault [[rowGood]]).1.snaps
    ∧ ((1 : Nat) = 1 + 1 → False) := by
  decide

/-- Claim C9, amended: after each window that completes its
read-prepare-write-report sequence normally, the run accumulators satisfy
`total_rows = success_rows + failed_rows`, provided no window's batch
insert faulted at transaction commit (a commit-stage fault double-counts
the window's candidates into both `success_rows` and `failed_rows`);
windows whose insert succeeded or faulted during execution preserve the
identity.  The snapshots record the accumulator triple at the end of each
completed window. -/
theorem run_total_eq_success_plus_failed (db : Nat → DbOutcome) (sinkF : Nat → Bool)
    (chunks : List (List RawRow)) (hdb : ∀ i, db i ≠ .commitFault)
    (x : Nat × Nat × Nat)
    (hx : x ∈ (import_data db sinkF chunks).1.snaps) :
    x.1 = x.2.1 + x.2.2 :=
  runLoop_snaps_inv db sinkF chunks hdb 0 initState rfl (by simp [initState]) x hx

/-- Claim C9 amended-form witness: the accumulator snapshot of a window
whose batch insert faulted during execution satisfies the invariant
(`total = 1`, `success = 0`, `failed = 1`). -/
theorem run_total_eq_success_plus_failed_witness :
    (∀ i, dbExecFault i ≠ DbOutcome.commitFault)
    ∧ (1, 0, 1) ∈ (import_data dbExecFault neverFault [[rowGood]]).1.snaps
    ∧ (1 : Nat) = 0 + 1 := by
  have h1 : ∀ i, dbExecFault i ≠ DbOutcome.commitFault := by
    intro i h
    simp [dbExecFault] at h
  have h2 : (1, 0, 1) ∈ (import_data dbExecFault neverFault [[rowGood]]).1.snaps := by
    decide
  exact ⟨h1, h2,
    run_total_eq_success_plus_failed dbExecFault neverFault [[rowGood]] h1 (1, 0, 1) h2⟩

/-- Claim C10, counterexample: under a commit-stage batch fault the
progress line still reports the candidate as succeeded, but the claim's
accounting contrast — "the run accumulators count those same rows as
failed", i.e. `success_rows` unchanged — fails: line 166 already ran, so
after the window both `success_rows` and `failed_rows` are 1. -/
theorem progress_line_commit_fault_counterexample :
    (import_data dbCommitFault neverFault [[rowGood]]).1.progress = [(0, 1, 0)]
    ∧ (import_data dbCommitFault neverFault [[rowGood]]).1.failed = 1
    ∧ (import_data dbCommitFault neverFault [[rowGood]]).1.success = 1
    ∧ (import_data dbCommitFault neverFault [[rowGood]]).1.success
        ≠ initState.success := by
  decide

/-- Claim C10, amended: a normally completed window's progress line reports
the prepared candidate count as succeeded and rows-in-window minus that
count as failed, by a formula that does not mention the batch outcome.  On
a batch fault the run accumulators add the full candidate count to
`failed_rows`; `success_rows` stays unchanged when the fault was raised by
the insert execution, but is also increased by the candidate count when
the fault was raised at transaction commit. -/
theorem progress_line_independent_of_batch_outcome (db : Nat → DbOutcome)
    (sinkF : Nat → Bool) (idx : Nat) (st : RunState) (chunk : List RawRow)
    (hsink : (prepareChunk chunk).2.1.isEmpty = true ∨ sinkF idx = false) :
    ∃ st', chunkStep db sinkF idx st chunk = (st', false)
      ∧ st'.progress = st.progress
          ++ [(idx, (prepareChunk chunk).1.length,
               chunk.length - (prepareChunk chunk).1.length)]
      ∧ (db idx = .execFault → st'.success = st.success
          ∧ st'.failed = st.failed + (prepareChunk chunk).2.2
              + (prepareChunk chunk).1.length)
      ∧ (db idx = .commitFault →
          st'.success = st.success + (prepareChunk chunk).1.length
          ∧ st'.failed = st.failed + (prepareChunk chunk).2.2
              + (prepareChunk chunk).1.length) := by
  rcases hb : (prepareChunk chunk).2.1.isEmpty with _ | _
  · have hsf : sinkF idx = false := by
      rcases hsink with h | h
      · rw [hb] at h
        exact Bool.noConfusion h
      · exact h
    have hstep : chunkStep db sinkF idx st chunk
        = (reportChunk idx chunk.length (prepareChunk chunk).1.length
            { batchWrite db idx { st with failed := st.failed + (prepareChunk chunk).2.2 }
                (prepareChunk chunk).1 with
              sink := (batchWrite db idx
                  { st with failed := st.failed + (prepareChunk chunk).2.2 }
                  (prepareChunk chunk).1).sink ++ (prepareChunk chunk).2.1 }, false) := by
      simp [chunkStep, hb, hsf]
    refine ⟨_, hstep, ?_, ?_, ?_⟩
    · simp [reportChunk, batchWrite_progress]
    · intro hf
      obtain ⟨h1, _, h3⟩ := batchWrite_of_execFault hf
        { st with failed := st.failed + (prepareChunk chunk).2.2 } (prepareChunk chunk).1
      exact ⟨by simpa [reportChunk] using h1, by simpa [reportChunk] using h3⟩
    · intro hf
      obtain ⟨h1, _, h3⟩ := batchWrite_of_commitFault hf
        { st with failed := st.failed + (prepareChunk chunk).2.2 } (prepareChunk chunk).1
      exact ⟨by simpa [reportChunk] using h1, by simpa [reportChunk] using h3⟩
  · have hstep : chunkStep db sinkF idx st chunk
        = (reportChunk idx chunk.length (prepareChunk chunk).1.length
            (batchWrite db idx { st with failed := st.failed + (prepareChunk chunk).2.2 }
              (prepareChunk chunk).1), false) := by
      simp [chunkStep, hb]
    refine ⟨_, hstep, ?_, ?_, ?_⟩
    · simp [reportChunk, batchWrite_progress]
    · intro hf
      obtain ⟨h1, _, h3⟩ := batchWrite_of_execFault hf
        { st with failed := st.failed + (prepareChunk chunk).2.2 } (prepareChunk chunk).1
      exact ⟨by simpa [reportChunk] using h1, by simpa [reportChunk] using h3⟩
    · intro hf
      obtain ⟨h1, _, h3⟩ := batchWrite_of_commitFault hf
        { st with failed := st.failed + (prepareChunk chunk).2.2 } (prepareChunk chunk).1
      exact ⟨by simpa [reportChunk] using h1, by simpa [reportChunk] using h3⟩

/-- Claim C10 amended-form witness: a one-row window against a database
faulting inside `conn.execute` still gets the progress line `(0, 1, 0)` —
its candidate reported as succeeded — while the accumulators count it as
failed and leave success unchanged. -/
theorem progress_line_independent_of_batch_outcome_witness :
    ∃ st', chunkStep dbExecFault neverFault 0 initState [rowGood] = (st', false)
      ∧ st'.progress = initState.progress
          ++ [(0, (prepareChunk [rowGood]).1.length,
               [rowGood].length - (prepareChunk [rowGood]).1.length)]
      ∧ (dbExecFault 0 = .execFault → st'.success = initState.success
          ∧ st'.failed = initState.failed + (prepareChunk [rowGood]).2.2
              + (prepareChunk [rowGood]).1.length)
      ∧ (dbExecFault 0 = .commitFault →
          st'.success = initState.success + (prepareChunk [rowGood]).1.length
          ∧ st'.failed = initState.failed + (prepareChunk [rowGood]).2.2
              + (prepareChunk [rowGood]).1.length) :=
  progress_line_independent_of_batch_outcome dbExecFault neverFault 0 initState [rowGood]
    (Or.inl (by decide))

end CsvGeo
